import Mathlib

/-!
Verification of the request-relay server in `src/server.js`.

The development embeds the handler of `POST /` shallowly:

* `Json` models the JavaScript values produced by `JSON.parse` (numbers keep
  their source literal, so no floating-point arithmetic is involved);
* `parseJson` models `JSON.parse` on a string (JSON grammar, returning `none`
  where `JSON.parse` throws);
* `tryParseJson`, `processHeaders`, `validateApi`, `buildConfig`,
  `relayResponse`, `handleFailure` and `handleRequest` are line-by-line
  translations of the corresponding parts of `src/server.js`;
* the network is an oracle `net : OutConfig → TransportOutcome` mapping the
  assembled outbound request to either a completed HTTP exchange or a
  transport-level error code, mirroring how axios resolves or rejects.

The express plumbing in front of the handler (routing, rate limiting, CORS)
is out of scope; the external `validator.isURL` predicate enters
`validateApi` as a parameter.  One wiring detail is kept because it is
observable: the text body parser (src/server.js line 38) leaves `req.body` as the
raw text string while the decode middleware writes the envelope to
`req.parsedBody`, and the express-validator chains validate `req.body` — so
`validateApi` takes both values and its checks read the former.
-/

/-- JavaScript values as produced by `JSON.parse`.  A number keeps its source
literal; object fields keep JavaScript property order (first definition wins
for position, last assignment wins for the value). -/
inductive Json where
  | null
  | bool (b : Bool)
  | num (lit : String)
  | str (s : String)
  | arr (elems : List Json)
  | obj (fields : List (String × Json))

/-- JavaScript object-style assignment on an association list: an existing key
keeps its position and receives the new value, a new key is appended.  Models
`target[key] = value`. -/
def setAssoc {α : Type} (xs : List (String × α)) (k : String) (v : α) :
    List (String × α) :=
  if xs.any (fun p => p.1 == k) then
    xs.map (fun p => if p.1 == k then (k, v) else p)
  else xs ++ [(k, v)]

/-- Property read on an association list, models `target[key]`. -/
def getAssoc {α : Type} : List (String × α) → String → Option α
  | [], _ => none
  | p :: rest, k => if p.1 == k then some p.2 else getAssoc rest k

/-- Whitespace accepted between JSON tokens by `JSON.parse`:
space, tab, line feed, carriage return. -/
def jsonWs (c : Char) : Bool :=
  c == ' ' || c == Char.ofNat 9 || c == Char.ofNat 10 || c == Char.ofNat 13

/-- Drop leading JSON whitespace. -/
def skipWs : List Char → List Char
  | [] => []
  | c :: cs => if jsonWs c then skipWs cs else c :: cs

/-- Value of a hexadecimal digit, for `\uXXXX` escapes. -/
def hexDigitVal (c : Char) : Option Nat :=
  if c.isDigit then some (c.toNat - 48)
  else if 97 ≤ c.toNat && c.toNat ≤ 102 then some (c.toNat - 87)
  else if 65 ≤ c.toNat && c.toNat ≤ 70 then some (c.toNat - 55)
  else none

/-- Single-character string escapes of JSON. -/
def escapeChar (c : Char) : Option Char :=
  if c == Char.ofNat 34 then some (Char.ofNat 34)
  else if c == Char.ofNat 92 then some (Char.ofNat 92)
  else if c == '/' then some '/'
  else if c == 'b' then some (Char.ofNat 8)
  else if c == 'f' then some (Char.ofNat 12)
  else if c == 'n' then some (Char.ofNat 10)
  else if c == 'r' then some (Char.ofNat 13)
  else if c == 't' then some (Char.ofNat 9)
  else none

/-- Parse the body of a JSON string after the opening quote; returns the
decoded characters and the input following the closing quote.  Control
characters below U+0020 are rejected, as in `JSON.parse`. -/
def parseStrChars : List Char → Option (List Char × List Char)
  | [] => none
  | c :: cs =>
    if c == Char.ofNat 34 then some ([], cs)
    else if c == Char.ofNat 92 then
      match cs with
      | [] => none
      | e :: cs2 =>
        if e == 'u' then
          match cs2 with
          | a :: b :: c2 :: d :: cs3 =>
            match hexDigitVal a, hexDigitVal b, hexDigitVal c2, hexDigitVal d with
            | some ha, some hb, some hc, some hd =>
              match parseStrChars cs3 with
              | some (s, rest) =>
                some (Char.ofNat (ha * 4096 + hb * 256 + hc * 16 + hd) :: s, rest)
              | none => none
            | _, _, _, _ => none
          | _ => none
        else
          match escapeChar e with
          | some ec =>
            match parseStrChars cs2 with
            | some (s, rest) => some (ec :: s, rest)
            | none => none
          | none => none
    else if c.toNat < 32 then none
    else
      match parseStrChars cs with
      | some (s, rest) => some (c :: s, rest)
      | none => none

/-- Split off the leading decimal digits. -/
def spanDigits : List Char → (List Char × List Char)
  | [] => ([], [])
  | c :: cs =>
    if c.isDigit then
      let (d, r) := spanDigits cs
      (c :: d, r)
    else ([], c :: cs)

/-- Integer part of a JSON number: `0`, or a nonzero digit followed by
digits. -/
def parseIntPart : List Char → Option (List Char × List Char)
  | [] => none
  | c :: cs =>
    if c == '0' then some ([c], cs)
    else if c.isDigit then
      let (d, r) := spanDigits cs
      some (c :: d, r)
    else none

/-- Optional fraction part of a JSON number: `.` followed by one or more
digits, or nothing. -/
def parseFracPart (cs : List Char) : Option (List Char × List Char) :=
  match cs with
  | c :: rest =>
    if c == '.' then
      match spanDigits rest with
      | ([], _) => none
      | (d, r) => some (c :: d, r)
    else some ([], cs)
  | [] => some ([], [])

/-- Optional exponent part of a JSON number. -/
def parseExpPart (cs : List Char) : Option (List Char × List Char) :=
  match cs with
  | c :: rest =>
    if c == 'e' || c == 'E' then
      let (sign, rest2) :=
        match rest with
        | s :: r2 => if s == '+' || s == '-' then ([s], r2) else (([] : List Char), rest)
        | [] => (([] : List Char), ([] : List Char))
      match spanDigits rest2 with
      | ([], _) => none
      | (d, r) => some (c :: (sign ++ d), r)
    else some ([], cs)
  | [] => some ([], [])

/-- A complete JSON number literal; the literal characters are kept. -/
def parseNumberLit (cs : List Char) : Option (List Char × List Char) :=
  let (sign, rest) :=
    match cs with
    | c :: r => if c == '-' then ([c], r) else (([] : List Char), cs)
    | [] => (([] : List Char), ([] : List Char))
  match parseIntPart rest with
  | none => none
  | some (ip, r1) =>
    match parseFracPart r1 with
    | none => none
    | some (fp, r2) =>
      match parseExpPart r2 with
      | none => none
      | some (ep, r3) => some (sign ++ ip ++ fp ++ ep, r3)

/-- Consume an expected keyword tail (`rue`, `alse`, `ull`). -/
def stripToken : List Char → List Char → Option (List Char)
  | [], cs => some cs
  | t :: ts, c :: cs => if c == t then stripToken ts cs else none
  | _ :: _, [] => none

mutual

/-- Fuelled recursive-descent parser for a JSON value; the fuel bounds the
nesting depth and is instantiated with the input length, which always
suffices since every recursion step consumes input. -/
def parseValue : Nat → List Char → Option (Json × List Char)
  | 0, _ => none
  | Nat.succ fuel, cs =>
    match skipWs cs with
    | [] => none
    | c :: rest =>
      if c == Char.ofNat 123 then
        match skipWs rest with
        | c2 :: r2 =>
          if c2 == Char.ofNat 125 then some (Json.obj [], r2)
          else parseMembers fuel rest []
        | [] => none
      else if c == Char.ofNat 91 then
        match skipWs rest with
        | c2 :: r2 =>
          if c2 == Char.ofNat 93 then some (Json.arr [], r2)
          else parseElems fuel rest []
        | [] => none
      else if c == Char.ofNat 34 then
        match parseStrChars rest with
        | some (s, r) => some (Json.str (String.mk s), r)
        | none => none
      else if c == 't' then
        match stripToken ['r', 'u', 'e'] rest with
        | some r => some (Json.bool true, r)
        | none => none
      else if c == 'f' then
        match stripToken ['a', 'l', 's', 'e'] rest with
        | some r => some (Json.bool false, r)
        | none => none
      else if c == 'n' then
        match stripToken ['u', 'l', 'l'] rest with
        | some r => some (Json.null, r)
        | none => none
      else
        match parseNumberLit (c :: rest) with
        | some (lit, r) => some (Json.num (String.mk lit), r)
        | none => none

/-- Members of a JSON object after the opening brace (nonempty case).
A duplicate key overwrites the earlier value in place, as `JSON.parse`
does. -/
def parseMembers : Nat → List Char → List (String × Json) →
    Option (Json × List Char)
  | 0, _, _ => none
  | Nat.succ fuel, cs, acc =>
    match skipWs cs with
    | c :: rest =>
      if c == Char.ofNat 34 then
        match parseStrChars rest with
        | some (k, r1) =>
          match skipWs r1 with
          | c2 :: r2 =>
            if c2 == ':' then
              match parseValue fuel r2 with
              | some (v, r3) =>
                match skipWs r3 with
                | c3 :: r4 =>
                  if c3 == ',' then
                    parseMembers fuel r4 (setAssoc acc (String.mk k) v)
                  else if c3 == Char.ofNat 125 then
                    some (Json.obj (setAssoc acc (String.mk k) v), r4)
                  else none
                | [] => none
              | none => none
            else none
          | [] => none
        | none => none
      else none
    | [] => none

/-- Elements of a JSON array after the opening bracket (nonempty case). -/
def parseElems : Nat → List Char → List Json → Option (Json × List Char)
  | 0, _, _ => none
  | Nat.succ fuel, cs, acc =>
    match parseValue fuel cs with
    | some (v, r1) =>
      match skipWs r1 with
      | c :: r2 =>
        if c == ',' then parseElems fuel r2 (acc ++ [v])
        else if c == Char.ofNat 93 then some (Json.arr (acc ++ [v]), r2)
        else none
      | [] => none
    | none => none

end

/-- Model of JavaScript `JSON.parse`: one JSON value, with only whitespace
allowed to remain; `none` where `JSON.parse` would throw. -/
def parseJson (s : String) : Option Json :=
  match parseValue (s.data.length + 1) s.data with
  | some (v, rest) => if (skipWs rest).isEmpty then some v else none
  | none => none

/-- `tryParseJson` from src/server.js lines 112-118: `JSON.parse` the string,
returning the original string when parsing fails. -/
def tryParseJson (s : String) : Json :=
  match parseJson s with
  | some v => v
  | none => Json.str s

/-- Split a character list at its first colon; `none` when no colon occurs.
`h.split(':')` followed by `value.join(':')` in src/server.js line 127
reconstructs exactly the part after the first colon, so the guarded branch of
the loop is equivalent to this split. -/
def splitAtColon : List Char → Option (List Char × List Char)
  | [] => none
  | c :: cs =>
    if c = ':' then some ([], cs)
    else
      match splitAtColon cs with
      | some (k, v) => some (c :: k, v)
      | none => none

/-- Remove leading and trailing whitespace from a character list. -/
def trimChars (cs : List Char) : List Char :=
  ((cs.dropWhile Char.isWhitespace).reverse.dropWhile Char.isWhitespace).reverse

/-- Model of JavaScript `String.prototype.trim`. -/
def jsTrim (s : String) : String := String.mk (trimChars s.data)

/-- One step of the `rawHeaders.forEach` loop of `processHeaders`
(src/server.js lines 125-130): a string entry containing a colon is split at
the first colon, the name and the value are trimmed and assigned; every other
entry is ignored. -/
def headerStep (acc : List (String × String)) (h : Json) :
    List (String × String) :=
  match h with
  | Json.str s =>
    match splitAtColon s.data with
    | some (k, v) => setAssoc acc (jsTrim (String.mk k)) (jsTrim (String.mk v))
    | none => acc
  | _ => acc

/-- The whole `forEach` loop over an array of raw header entries. -/
def collectHeaders (hs : List Json) : List (String × String) :=
  hs.foldl headerStep []

/-- The mapping collected from the raw `api.header` value before defaults:
only an array contributes entries (`Array.isArray`, src/server.js line 124);
any other value contributes nothing. -/
def headersOf (rawHeaders : Json) : List (String × String) :=
  match rawHeaders with
  | Json.arr hs => collectHeaders hs
  | _ => []

/-- The default headers applied when the collected mapping is empty
(src/server.js lines 133-137). -/
def defaultHeaders : List (String × String) :=
  [("Accept", "application/json"), ("Content-Type", "application/json")]

/-- `processHeaders` from src/server.js lines 121-140. -/
def processHeaders (rawHeaders : Json) : List (String × String) :=
  if (headersOf rawHeaders).isEmpty then defaultHeaders
  else headersOf rawHeaders

/-- The allowed-method list of `validateInput`
(src/server.js lines 99-100): `body('api.method').isIn([...])`. -/
def allowedMethods : List String :=
  ["GET", "POST", "PUT", "PATCH", "DELETE", "HEAD", "OPTIONS"]

/-- Model of JavaScript `String.prototype.toUpperCase` (src/server.js
line 146) for the ASCII strings that occur as method names: each character is
mapped to its uppercase form. -/
def jsToUpper (s : String) : String := String.mk (s.data.map Char.toUpper)

/-- Property access on a decoded value, `undefined` being `none`. -/
def Json.getField : Json → String → Option Json
  | Json.obj fields, k => getAssoc fields k
  | _, _ => none

/-- The destructured `req.parsedBody.api` of src/server.js line 145.  The
destructuring default `header = []` applies only when the property is
`undefined`, so an explicit `null` is kept. -/
structure Api where
  url : String
  method : String
  header : Json
  postData : Option Json

/-- `postData !== undefined && postData !== null` (src/server.js line 160). -/
def jsBodyPresent : Option Json → Bool
  | none => false
  | some Json.null => false
  | some _ => true

/-- `config.data` of the outbound request (src/server.js lines 160-162):
present only when a body value is given and the method is neither GET nor
HEAD; a string body goes through `tryParseJson`, everything else is passed
as-is. -/
def outData (api : Api) : Option Json :=
  if jsBodyPresent api.postData && !(jsToUpper api.method == "GET")
      && !(jsToUpper api.method == "HEAD") then
    match api.postData with
    | some (Json.str s) => some (tryParseJson s)
    | some v => some v
    | none => none
  else none

/-- The outbound axios request configuration (src/server.js lines 149-162),
restricted to the envelope-derived fields; the fixed transport settings
(agent, timeout, redirect limit, `validateStatus`) carry no per-request
information. -/
structure OutConfig where
  method : String
  url : String
  headers : List (String × String)
  data : Option Json

/-- Assemble the outbound request from the destructured envelope
(src/server.js lines 145-162). -/
def buildConfig (api : Api) : OutConfig :=
  { method := jsToUpper api.method
    url := api.url
    headers := processHeaders api.header
    data := outData api }

/-- The axios response object of a completed exchange; axios exposes response
header names lowercased, and `response.data` is the payload as axios
delivers it. -/
structure TargetResponse where
  status : Nat
  headers : List (String × String)
  data : Json

/-- Body of the relay's inbound response: either the forwarded target
payload (`res.send(response.data)`), a structured error object
(`res.json(...)` with `error` and optional `details`), or the
express-validator error array (`res.json(...)` with `errors`). -/
inductive RespBody where
  | payload (data : Json)
  | errObj (error : String) (details : Option String)
  | errList (msgs : List String)

/-- The relay's inbound response, with the headers explicitly set by the
handler. -/
structure InboundResponse where
  status : Nat
  headers : List (String × String)
  body : RespBody

/-- src/server.js lines 167-172: forward the target's status and payload, set only
the Content-Type header, falling back to `application/octet-stream` when the
target sent none. -/
def relayResponse (t : TargetResponse) : InboundResponse :=
  { status := t.status
    headers :=
      [("Content-Type",
        (getAssoc t.headers "content-type").getD "application/octet-stream")]
    body := RespBody.payload t.data }

/-- The catch block of the handler (src/server.js lines 174-189): `ECONNABORTED`
maps to 504 "Request timeout", `ENOTFOUND` to 502 "Failed to resolve host",
and every other error to 500 "Internal proxy error", with the message as
`details` outside production. -/
def handleFailure (isProduction : Bool) (code message : String) :
    InboundResponse :=
  if code == "ECONNABORTED" then
    { status := 504, headers := [], body := RespBody.errObj "Request timeout" none }
  else if code == "ENOTFOUND" then
    { status := 502, headers := [],
      body := RespBody.errObj "Failed to resolve host" none }
  else
    { status := 500, headers := [],
      body := RespBody.errObj "Internal proxy error"
        (if isProduction then none else some message) }

/-- Outcome of the outbound axios call: a completed HTTP exchange of any
status (`validateStatus: () => true` keeps axios from rejecting on 4xx/5xx),
or a transport-level failure carrying a Node error code and message. -/
inductive TransportOutcome where
  | response (t : TargetResponse)
  | failure (code : String) (message : String)

/-- Map the outcome of the outbound call to the inbound response
(src/server.js lines 165-189). -/
def runRelay (isProduction : Bool) (outcome : TransportOutcome) :
    InboundResponse :=
  match outcome with
  | TransportOutcome.response t => relayResponse t
  | TransportOutcome.failure code message =>
    handleFailure isProduction code message

/-- The `api.url` check of `validateInput` (src/server.js line 98):
`body('api.url').isURL()`.  The chain validates the `body` location, i.e.
`req.body` — passed in as `reqBody`, the value the body parser left there —
resolving the path `api.url` on it; on a non-object value the path yields
`undefined` and the check fails with the library's default message
"Invalid value" (no `withMessage` is attached to the URL check).  The
external `validator.isURL` predicate enters as `urlOk`. -/
def urlError (urlOk : String → Bool) (reqBody : Json) : Option String :=
  match (reqBody.getField "api").bind (fun a => a.getField "url") with
  | some (Json.str u) => if urlOk u then none else some "Invalid value"
  | _ => some "Invalid value"

/-- The `api.method` check of `validateInput` (src/server.js lines 99-100):
`body('api.method').isIn([...])`, again validating the path `api.method` of
`req.body` (`reqBody`); membership in `allowedMethods` is exact string
membership (`isIn` compares case-sensitively) and any failure carries the
message "Invalid HTTP method". -/
def methodError (reqBody : Json) : Option String :=
  match (reqBody.getField "api").bind (fun a => a.getField "method") with
  | some (Json.str m) =>
    if allowedMethods.contains m then none else some "Invalid HTTP method"
  | _ => some "Invalid HTTP method"

/-- The destructuring of src/server.js line 145, defined when validation has
passed (both checked fields are then strings). -/
def destructureApi (parsedBody : Json) : Option Api :=
  match parsedBody.getField "api" with
  | some a =>
    match a.getField "url", a.getField "method" with
    | some (Json.str u), some (Json.str m) =>
      some { url := u, method := m
             header := (a.getField "header").getD (Json.arr [])
             postData := a.getField "body" }
    | _, _ => none
  | none => none

/-- The express-validator stage of `validateInput` (src/server.js lines 97-108)
followed by the handler's destructuring.  Both chains validate `reqBody`,
the value of `req.body`: the text body parser of line 38 leaves `req.body`
as the raw text string — the decoded envelope is written to the separate
property `req.parsedBody` (lines 79 and 85) — so under the real wiring
`reqBody` is `Json.str` of the raw text.  The two messages are collected in
chain order and a nonempty error list is answered with status 400 (line
105); only when both checks pass is `req.parsedBody` (`parsedBody`)
destructured.  The final `none` branch is unreachable when the checked
fields of `reqBody` are strings. -/
def validateApi (urlOk : String → Bool) (reqBody parsedBody : Json) :
    Except InboundResponse Api :=
  match urlError urlOk reqBody, methodError reqBody with
  | none, none =>
    match destructureApi parsedBody with
    | some api => Except.ok api
    | none =>
      Except.error { status := 400, headers := [], body := RespBody.errList [] }
  | ue, me =>
    Except.error
      { status := 400, headers := []
        body := RespBody.errList (ue.toList ++ me.toList) }

/-- The `POST /` route (src/server.js lines 143-190) after the body-decoding
middleware: `reqBody` is what `req.body` holds (the raw text string under
the line-38 text parser), `parsedBody` is `req.parsedBody`.  A validation
failure is answered immediately — no outbound call is made, so the result
does not depend on `net`; on success the outbound call described by
`buildConfig` is performed against the network oracle and its outcome
relayed. -/
def handleRequest (urlOk : String → Bool) (isProduction : Bool)
    (reqBody parsedBody : Json) (net : OutConfig → TransportOutcome) :
    InboundResponse :=
  match validateApi urlOk reqBody parsedBody with
  | Except.error resp => resp
  | Except.ok api => runRelay isProduction (net (buildConfig api))

/-- Discriminator for the relay's own synthesized error shapes. -/
def RespBody.isErrorShape : RespBody → Bool
  | RespBody.payload _ => false
  | RespBody.errObj _ _ => true
  | RespBody.errList _ => true

/-- The raw text of a well-formed JSON envelope with method GET — the value
`req.body` holds for the C8 failing input. -/
def rawEnvelopeGet : String :=
  "\x7b\"api\":\x7b\"url\":\"http://example.com\",\"method\":\"GET\"\x7d\x7d"

/-- POST envelope whose `api.body` is the empty object, used against C9. -/
def apiEmptyObjectBody : Api :=
  { url := "http://example.com", method := "POST", header := Json.arr []
    postData := some (Json.obj []) }

/-- The JSON-encoded string body of the round-trip example. -/
def jsonStringExample : String := "\x7b\"a\":1\x7d"

theorem getAssoc_map_set {α : Type} (k : String) (v : α) :
    ∀ xs : List (String × α), xs.any (fun p => p.1 == k) = true →
      getAssoc (xs.map (fun p => if p.1 == k then (k, v) else p)) k = some v
  | [], h => by simp at h
  | p :: rest, h => by
    by_cases hp : (p.1 == k) = true
    · simp [getAssoc, hp]
    · have hpf : (p.1 == k) = false := by
        cases hpb : (p.1 == k) with
        | false => rfl
        | true => exact absurd hpb hp
      have hr : rest.any (fun p => p.1 == k) = true := by
        simp only [List.any_cons, hpf, Bool.false_or] at h
        exact h
      simp only [List.map_cons]
      rw [if_neg hp]
      simp only [getAssoc]
      rw [if_neg hp]
      exact getAssoc_map_set k v rest hr

theorem getAssoc_append_new {α : Type} (k : String) (v : α) :
    ∀ xs : List (String × α), xs.any (fun p => p.1 == k) = false →
      getAssoc (xs ++ [(k, v)]) k = some v
  | [], _ => by simp [getAssoc]
  | p :: rest, h => by
    have hp : (p.1 == k) = false := by
      cases hpb : (p.1 == k) with
      | false => rfl
      | true => simp [List.any_cons, hpb] at h
    have hr : rest.any (fun p => p.1 == k) = false := by
      simp only [List.any_cons, hp, Bool.false_or] at h
      exact h
    simp only [List.cons_append, getAssoc]
    rw [if_neg (by simp [hp])]
    exact getAssoc_append_new k v rest hr

theorem getAssoc_setAssoc {α : Type} (xs : List (String × α)) (k : String)
    (v : α) : getAssoc (setAssoc xs k v) k = some v := by
  by_cases h : (xs.any fun p => p.1 == k) = true
  · unfold setAssoc
    rw [if_pos h]
    exact getAssoc_map_set k v xs h
  · have hf : (xs.any fun p => p.1 == k) = false := by
      cases hv : xs.any fun p => p.1 == k with
      | false => rfl
      | true => exact absurd hv h
    unfold setAssoc
    rw [if_neg h]
    exact getAssoc_append_new k v xs hf

theorem splitAtColon_first (v : List Char) :
    ∀ k : List Char, (':' : Char) ∉ k →
      splitAtColon (k ++ ':' :: v) = some (k, v)
  | [], _ => by simp [splitAtColon]
  | c :: k, h => by
    have hc : ¬(c = ':') := fun e => h (by rw [e]; exact List.mem_cons_self _ _)
    have ht : (':' : Char) ∉ k := fun m => h (List.mem_cons_of_mem c m)
    simp only [List.cons_append, splitAtColon]
    rw [if_neg hc,
      show splitAtColon (List.append k (':' :: v)) = some (k, v) from
        splitAtColon_first v k ht]

theorem splitAtColon_none : ∀ cs : List Char, (':' : Char) ∉ cs →
    splitAtColon cs = none
  | [], _ => rfl
  | c :: cs, h => by
    have hc : ¬(c = ':') := fun e => h (by rw [e]; exact List.mem_cons_self _ _)
    have ht : (':' : Char) ∉ cs := fun m => h (List.mem_cons_of_mem c m)
    simp only [splitAtColon]
    rw [if_neg hc, splitAtColon_none cs ht]

theorem headerStep_colon (acc : List (String × String)) (k v : List Char)
    (h : (':' : Char) ∉ k) :
    headerStep acc (Json.str (String.mk (k ++ ':' :: v)))
      = setAssoc acc (jsTrim (String.mk k)) (jsTrim (String.mk v)) := by
  simp only [headerStep]
  rw [splitAtColon_first v k h]

theorem headerStep_noColon (acc : List (String × String)) (s : String)
    (h : (':' : Char) ∉ s.data) : headerStep acc (Json.str s) = acc := by
  simp only [headerStep]
  rw [splitAtColon_none s.data h]

theorem collectHeaders_unparseable :
    ∀ (hs : List Json) (acc : List (String × String)),
      (∀ s : String, Json.str s ∈ hs → (':' : Char) ∉ s.data) →
      List.foldl headerStep acc hs = acc
  | [], _, _ => rfl
  | j :: rest, acc, h => by
    have hj : headerStep acc j = acc := by
      cases j with
      | str s => exact headerStep_noColon acc s (h s (List.mem_cons_self _ _))
      | null => rfl
      | bool b => rfl
      | num l => rfl
      | arr xs => rfl
      | obj fs => rfl
    calc List.foldl headerStep acc (j :: rest)
        = List.foldl headerStep (headerStep acc j) rest := rfl
      _ = List.foldl headerStep acc rest := by rw [hj]
      _ = acc := collectHeaders_unparseable rest acc
            (fun s m => h s (List.mem_cons_of_mem _ m))

/-- C1: on an outbound call that completes with an HTTP response — any status
code, 4xx and 5xx included, since `validateStatus: () => true` keeps axios
from rejecting — the relay's inbound response carries exactly the target's
status code, a Content-Type equal to the target's (or
application/octet-stream when the target sent none), and the target's payload
unmodified; the body is never one of the relay's own error shapes. -/
theorem relay_mirrors_completed_exchange (isProduction : Bool)
    (t : TargetResponse) :
    (runRelay isProduction (TransportOutcome.response t)).status = t.status
    ∧ (runRelay isProduction (TransportOutcome.response t)).headers
        = [("Content-Type",
            (getAssoc t.headers "content-type").getD "application/octet-stream")]
    ∧ (runRelay isProduction (TransportOutcome.response t)).body
        = RespBody.payload t.data
    ∧ (runRelay isProduction (TransportOutcome.response t)).body.isErrorShape
        = false :=
  ⟨rfl, rfl, rfl, rfl⟩

/-- C10: the response-header relay policy of the code: on every completed
exchange the only header forwarded to the caller is Content-Type (with
application/octet-stream substituted when the target sent none); every other
target response header is dropped, uniformly. -/
theorem relay_forwards_only_content_type (isProduction : Bool)
    (t : TargetResponse) :
    (runRelay isProduction (TransportOutcome.response t)).headers
      = [("Content-Type",
          (getAssoc t.headers "content-type").getD "application/octet-stream")]
    ∧ (runRelay isProduction (TransportOutcome.response t)).headers.map Prod.fst
        = ["Content-Type"] :=
  ⟨rfl, rfl⟩

/-- C4 as stated is false: a connection-refused transport failure — code
ECONNREFUSED, no response received — is answered with status 500, which is
neither 502 nor 504. -/
theorem transport_error_counterexample :
    (handleFailure false "ECONNREFUSED" "connect ECONNREFUSED 127.0.0.1:443").status
      = 500
    ∧ ¬((handleFailure false "ECONNREFUSED" "connect ECONNREFUSED 127.0.0.1:443").status
          = 502
        ∨ (handleFailure false "ECONNREFUSED" "connect ECONNREFUSED 127.0.0.1:443").status
          = 504) :=
  ⟨rfl, by decide⟩

/-- C4 amended: the handler never crashes (the catch block is a total map
from the error to a structured response); a timeout (ECONNABORTED) is
answered 504 with error "Request timeout", a DNS failure (ENOTFOUND) 502 with
"Failed to resolve host", and every other transport failure 500 with
"Internal proxy error", the message appearing as details only outside
production. -/
theorem transport_error_mapping (isProduction : Bool) (code message : String) :
    handleFailure isProduction "ECONNABORTED" message
      = { status := 504, headers := []
          body := RespBody.errObj "Request timeout" none }
    ∧ handleFailure isProduction "ENOTFOUND" message
      = { status := 502, headers := []
          body := RespBody.errObj "Failed to resolve host" none }
    ∧ (code ≠ "ECONNABORTED" → code ≠ "ENOTFOUND" →
        handleFailure isProduction code message
          = { status := 500, headers := []
              body := RespBody.errObj "Internal proxy error"
                (if isProduction then none else some message) }) := by
  refine ⟨rfl, rfl, fun h1 h2 => ?_⟩
  simp [handleFailure, h1, h2]

/-- Witness for the amended C4 at the concrete code ECONNREFUSED. -/
theorem transport_error_mapping_witness :
    handleFailure true "ECONNREFUSED" "connect ECONNREFUSED 127.0.0.1:443"
      = { status := 500, headers := []
          body := RespBody.errObj "Internal proxy error" none } :=
  (transport_error_mapping true "ECONNREFUSED"
    "connect ECONNREFUSED 127.0.0.1:443").2.2 (by decide) (by decide)

/-- C7 as stated is false: an object-form `api.header` mapping is not used
directly; its entries are dropped and the default headers are applied
instead. -/
theorem object_headers_counterexample :
    processHeaders (Json.obj [("X-Custom", Json.str "v")]) = defaultHeaders
    ∧ defaultHeaders ≠ [("X-Custom", "v")] :=
  ⟨rfl, by decide⟩

/-- C7 amended: the header normalizer consumes only the list form
(`Array.isArray`); an object-form `api.header` contributes nothing, so the
resulting mapping is empty and the outbound request carries exactly the
default headers. -/
theorem object_headers_ignored (fields : List (String × Json)) :
    processHeaders (Json.obj fields) = defaultHeaders :=
  rfl

/-- C9 as stated is false: an empty-object `api.body` on a POST passes the
`postData !== undefined && postData !== null` test, so the outbound request
does carry a body — the empty JSON object. -/
theorem empty_object_body_counterexample :
    (buildConfig apiEmptyObjectBody).data = some (Json.obj [])
    ∧ ((buildConfig apiEmptyObjectBody).data = none → False) :=
  ⟨rfl, fun h => Option.noConfusion h⟩

/-- C9 amended: on a non-GET/HEAD envelope an absent or null `api.body`
produces no outbound body, while an object-form body — the empty object
included — is forwarded as-is. -/
theorem body_materializer_absent_null (api : Api)
    (hg : jsToUpper api.method ≠ "GET") (hh : jsToUpper api.method ≠ "HEAD") :
    (api.postData = none → (buildConfig api).data = none)
    ∧ (api.postData = some Json.null → (buildConfig api).data = none)
    ∧ (∀ fields, api.postData = some (Json.obj fields) →
        (buildConfig api).data = some (Json.obj fields)) := by
  refine ⟨fun h => ?_, fun h => ?_, fun fields h => ?_⟩
  · simp [buildConfig, outData, h, jsBodyPresent]
  · simp [buildConfig, outData, h, jsBodyPresent]
  · simp [buildConfig, outData, h, jsBodyPresent, hg, hh]

/-- Witness for the amended C9: a POST with null body carries no outbound
body. -/
theorem body_materializer_absent_null_witness :
    (buildConfig { url := "http://example.com", method := "POST"
                   header := Json.arr []
                   postData := some Json.null }).data = none :=
  (body_materializer_absent_null
    { url := "http://example.com", method := "POST", header := Json.arr []
      postData := some Json.null } (by decide) (by decide)).2.1 rfl

/-- C2: an envelope whose method uppercases to GET or HEAD never carries an
outbound body, whatever `api.body` holds. -/
theorem get_head_discard_body (api : Api)
    (h : jsToUpper api.method = "GET" ∨ jsToUpper api.method = "HEAD") :
    (buildConfig api).data = none := by
  rcases h with h | h <;> simp [buildConfig, outData, h]

/-- Witness for C2: a lowercase-get envelope with a body supplied still sends
none. -/
theorem get_head_discard_body_witness :
    (buildConfig { url := "http://example.com", method := "get"
                   header := Json.arr []
                   postData := some (Json.str "ignored") }).data = none :=
  get_head_discard_body _ (Or.inl (by decide))

/-- C3: a string `api.body` on a non-GET/HEAD envelope is materialized by
`tryParseJson`: when the string parses as JSON the outbound body is the
parsed structured value, otherwise it is the raw string unmodified. -/
theorem string_body_coercion (api : Api) (s : String)
    (hg : jsToUpper api.method ≠ "GET") (hh : jsToUpper api.method ≠ "HEAD")
    (hb : api.postData = some (Json.str s)) :
    (buildConfig api).data = some (tryParseJson s)
    ∧ (∀ v, parseJson s = some v → tryParseJson s = v)
    ∧ (parseJson s = none → tryParseJson s = Json.str s) := by
  refine ⟨?_, fun v h => ?_, fun h => ?_⟩
  · simp [buildConfig, outData, hb, jsBodyPresent, hg, hh]
  · simp [tryParseJson, h]
  · simp [tryParseJson, h]

/-- Witness for C3 at the round-trip example: the JSON-encoded string body
yields the structured value, not the literal string. -/
theorem string_body_coercion_witness :
    (buildConfig { url := "http://example.com", method := "POST"
                   header := Json.arr []
                   postData := some (Json.str jsonStringExample) }).data
      = some (Json.obj [("a", Json.num "1")]) := by
  rw [(string_body_coercion
    { url := "http://example.com", method := "POST", header := Json.arr []
      postData := some (Json.str jsonStringExample) } jsonStringExample
    (by decide) (by decide) rfl).1]
  rfl

/-- C5: a list-form header entry containing a colon is split at the first
colon with the name and the value trimmed and later colons preserved in the
value; an entry without a colon is silently dropped; the last assignment to a
name determines its value in the mapping. -/
theorem header_list_normalization :
    (∀ (acc : List (String × String)) (k v : List Char), (':' : Char) ∉ k →
      headerStep acc (Json.str (String.mk (k ++ ':' :: v)))
        = setAssoc acc (jsTrim (String.mk k)) (jsTrim (String.mk v)))
    ∧ (∀ (acc : List (String × String)) (s : String), (':' : Char) ∉ s.data →
      headerStep acc (Json.str s) = acc)
    ∧ (∀ (m : List (String × String)) (k v : String),
      getAssoc (setAssoc m k v) k = some v) :=
  ⟨headerStep_colon, headerStep_noColon, getAssoc_setAssoc⟩

/-- Witness for C5: "X-Trace:abc:def" normalizes to X-Trace ↦ "abc:def",
the colon inside the value preserved. -/
theorem header_list_normalization_witness :
    headerStep [] (Json.str (String.mk ("X-Trace".data ++ ':' :: "abc:def".data)))
      = [("X-Trace", "abc:def")] := by
  rw [header_list_normalization.1 [] "X-Trace".data "abc:def".data (by decide)]
  decide

/-- C6: whenever header normalization collects nothing — the header list is
absent (destructured to `[]`), empty, or made only of unparseable entries —
the outbound request carries exactly the default headers
Accept: application/json and Content-Type: application/json. -/
theorem empty_headers_get_defaults :
    (∀ api : Api, headersOf api.header = [] →
      (buildConfig api).headers = defaultHeaders)
    ∧ headersOf (Json.arr []) = []
    ∧ (∀ hs : List Json,
        (∀ s : String, Json.str s ∈ hs → (':' : Char) ∉ s.data) →
        headersOf (Json.arr hs) = []) := by
  refine ⟨fun api h => ?_, rfl, fun hs h => ?_⟩
  · simp [buildConfig, processHeaders, h]
  · exact collectHeaders_unparseable hs [] h

/-- Witness for C6: an envelope whose only header entry has no colon gets the
default headers. -/
theorem empty_headers_get_defaults_witness :
    (buildConfig { url := "http://example.com", method := "GET"
                   header := Json.arr [Json.str "not a header"]
                   postData := none }).headers = defaultHeaders :=
  empty_headers_get_defaults.1 _ (by decide)

/-- C8: the program accepts no method at all.  The validator chains of
lines 98-100 validate `req.body`, which the text body parser of line 38
leaves as the raw text string; on a string the paths api.url and api.method
resolve to `undefined`, so for every request — the well-formed GET envelope
`rawEnvelopeGet` included — both checks fail, the response is 400 with the
two messages "Invalid value" and "Invalid HTTP method", and no outbound call
is ever attempted: the relay path is dead and the response is independent of
the network oracle.  The claim's acceptance of case-insensitive matches of
the allowed methods (and the spec's decode contract) therefore does not hold
of the code. -/
theorem method_validation_dead (urlOk : String → Bool) (raw : String)
    (parsedBody : Json) :
    validateApi urlOk (Json.str raw) parsedBody
      = Except.error { status := 400, headers := []
                       body := RespBody.errList
                         ["Invalid value", "Invalid HTTP method"] }
    ∧ (∀ (isProduction : Bool) (net1 net2 : OutConfig → TransportOutcome),
        handleRequest urlOk isProduction (Json.str raw) parsedBody net1
          = handleRequest urlOk isProduction (Json.str raw) parsedBody net2)
    ∧ parseJson rawEnvelopeGet
        = some (Json.obj [("api", Json.obj
            [("url", Json.str "http://example.com"),
             ("method", Json.str "GET")])]) :=
  ⟨rfl, fun _ _ _ => rfl, rfl⟩
